import Mathlib

/-!
Shallow embedding of the qemu launcher library (executable resolver and
launcher facade) for verification of its specification.

The repository has three platform variants:
* a Linux variant (free functions `getExePathIfExists`, `findQemuExecutableEnv`,
  `findQemuExecutablePath`, `findQemuExecutable`) together with the generic
  facade `qemu_launcher.cpp`;
* a macOS variant (`isFileExists`, `getExePathIfExists`, the three strategy
  functions plus `findQemuExecutableCommon`, and a pImpl `Launcher::Impl`
  holding state and `start`/`stop`/`terminate`);
* a Windows variant (wide-string versions of the same strategies plus a
  registry strategy).

Environment variables and the filesystem are modelled as explicit inputs:
`Env` carries the values of `QEMU_ROOT` and `PATH` (`none` = unset), `FS`
carries the existence and executability predicates used by the probes, and
the Windows registry value `HKLM\SOFTWARE\QEMU\Install_Dir` is passed as an
`Option String`.  Functions are suffixed by platform (`Linux`, `Mac`, `Win`)
because the C++ names collide across translation units.
-/

/-- Abstract state of the process environment: value of `QEMU_ROOT` and of
`PATH` (`none` models an unset variable, mirroring `std::getenv` returning
`nullptr` / `GetEnvironmentVariableW` returning size 0). -/
structure Env where
  qemuRoot : Option String
  searchPath : Option String

/-- Abstract filesystem: which paths exist (`std::filesystem::exists` /
`GetFileAttributesW`) and which are executable (`access(path, X_OK)`). -/
structure FS where
  fileExists : String → Bool
  isExec : String → Bool

/-- Splitting loop used by `findQemuExecutablePath` on every platform: the
C++ code walks the string, cutting a segment at each separator and keeping
the final (or only) segment; empty segments are kept. -/
def splitCharsAux (sep : Char) : List Char → List Char → List String
  | cur, [] => [String.mk cur.reverse]
  | cur, c :: rest =>
    if c = sep then String.mk cur.reverse :: splitCharsAux sep [] rest
    else splitCharsAux sep (c :: cur) rest

/-- Split a string on a separator character, keeping empty segments,
exactly as the `find`/`substr` loop in the source does. -/
def splitSegments (sep : Char) (s : String) : List String :=
  splitCharsAux sep [] s.data

/-- First-match walk over the directory segments of the search path: probe
each segment in order, return the first non-empty probe result (the C++
loop returns the probe result of the last segment directly; since a failed
probe is the empty string, that is the same first-match behaviour). -/
def searchSegments (probe : String → String) : List String → String
  | [] => ""
  | d :: rest =>
    let p := probe d
    if p = "" then searchSegments probe rest else p

/-! ### Linux resolver (`src/unnamed/part_000`, first translation unit) -/

/-- Linux `getExePathIfExists`: probes `directory + "/" + system + ".exe"`
and requires only `std::filesystem::exists` (no executability check). -/
def getExePathIfExistsLinux (fs : FS) (directory system : String) : String :=
  let exePath := directory ++ "/" ++ system ++ ".exe"
  if fs.fileExists exePath then exePath else ""

/-- Linux `findQemuExecutableEnv`: probe `$QEMU_ROOT` if set. -/
def findQemuExecutableEnvLinux (env : Env) (fs : FS) (system : String) : String :=
  match env.qemuRoot with
  | none => ""
  | some root => getExePathIfExistsLinux fs root system

/-- Linux `findQemuExecutablePath`: split `$PATH` on `:` and probe each
segment left to right. -/
def findQemuExecutablePathLinux (env : Env) (fs : FS) (system : String) : String :=
  match env.searchPath with
  | none => ""
  | some pathStr =>
    searchSegments (fun d => getExePathIfExistsLinux fs d system) (splitSegments ':' pathStr)

/-- Linux `findQemuExecutable`: `QEMU_ROOT` strategy, then `PATH` strategy,
else empty.  There is no empty-`system` check and no third strategy. -/
def findQemuExecutableLinux (env : Env) (fs : FS) (system : String) : String :=
  let qemuEnv := findQemuExecutableEnvLinux env fs system
  if qemuEnv ≠ "" then qemuEnv
  else
    let pathPath := findQemuExecutablePathLinux env fs system
    if pathPath ≠ "" then pathPath
    else ""

/-! ### macOS resolver (`src/unnamed/part_000`, second translation unit) -/

/-- macOS `isFileExists`: existence and `access(path, X_OK) == 0`. -/
def isFileExistsMac (fs : FS) (path : String) : Bool :=
  fs.fileExists path && fs.isExec path

/-- macOS `getExePathIfExists`: probes `directory + "/" + system`
(no extension) with the existence-and-executability check. -/
def getExePathIfExistsMac (fs : FS) (directory system : String) : String :=
  let exePath := directory ++ "/" ++ system
  if isFileExistsMac fs exePath then exePath else ""

/-- macOS `findQemuExecutableEnv`. -/
def findQemuExecutableEnvMac (env : Env) (fs : FS) (system : String) : String :=
  match env.qemuRoot with
  | none => ""
  | some root => getExePathIfExistsMac fs root system

/-- macOS `findQemuExecutablePath`: same `:`-splitting loop as Linux. -/
def findQemuExecutablePathMac (env : Env) (fs : FS) (system : String) : String :=
  match env.searchPath with
  | none => ""
  | some pathStr =>
    searchSegments (fun d => getExePathIfExistsMac fs d system) (splitSegments ':' pathStr)

/-- The fixed list of common installation paths probed by the macOS
`findQemuExecutableCommon`. -/
def commonPathsMac : List String :=
  ["/usr/local/bin",
   "/opt/homebrew/bin",
   "/usr/local/Cellar/qemu",
   "/opt/homebrew/Cellar/qemu",
   "/Applications/QEMU.app/Contents/MacOS",
   "/usr/bin",
   "/opt/qemu/bin"]

/-- macOS `findQemuExecutableCommon`: probe the well-known locations in
order, first match wins. -/
def findQemuExecutableCommonMac (fs : FS) (system : String) : String :=
  searchSegments (fun d => getExePathIfExistsMac fs d system) commonPathsMac

/-- macOS `Launcher::Impl::findQemuExecutable`: resets `mQemuPath`, rejects
an empty system name, then tries `QEMU_ROOT`, `PATH` and the common paths in
that order.  Returns the resulting `mQemuPath` and the boolean result. -/
def implFindQemuExecutableMac (env : Env) (fs : FS) (system : String) : String × Bool :=
  if system = "" then ("", false)
  else
    let envPath := findQemuExecutableEnvMac env fs system
    if envPath ≠ "" then (envPath, true)
    else
      let pathExe := findQemuExecutablePathMac env fs system
      if pathExe ≠ "" then (pathExe, true)
      else
        let commonPath := findQemuExecutableCommonMac fs system
        if commonPath ≠ "" then (commonPath, true)
        else ("", false)

/-! ### Windows resolver (`src/src/qemu_launcher_windows.cpp`) -/

/-- Windows `getExePathIfExists`: formats `directory + "\" + system + ".exe"`
and checks `GetFileAttributesW` (existence only; Windows has no execute
bit check here). -/
def getExePathIfExistsWin (fs : FS) (directory system : String) : String :=
  let exePath := directory ++ "\\" ++ system ++ ".exe"
  if fs.fileExists exePath then exePath else ""

/-- Windows `findQemuExecutableEnv`: `GetEnvironmentVariableW` returns size
0 for an unset variable, and the `written > 0` guard skips an empty value. -/
def findQemuExecutableEnvWin (env : Env) (fs : FS) (system : String) : String :=
  match env.qemuRoot with
  | none => ""
  | some root => if root = "" then "" else getExePathIfExistsWin fs root system

/-- Windows `findQemuExecutablePath`: splits the `PATH` buffer at each `;`
and at the terminating null, probing every segment (empty ones included)
left to right; an unset or empty `PATH` yields no probe. -/
def findQemuExecutablePathWin (env : Env) (fs : FS) (system : String) : String :=
  match env.searchPath with
  | none => ""
  | some pathStr =>
    if pathStr = "" then ""
    else searchSegments (fun d => getExePathIfExistsWin fs d system) (splitSegments ';' pathStr)

/-- Windows `findQemuExecutableRegistry`: read
`HKLM\SOFTWARE\QEMU\Install_Dir` (modelled as an `Option String`) and probe
that directory. -/
def findQemuExecutableRegistryWin (reg : Option String) (fs : FS) (system : String) : String :=
  match reg with
  | none => ""
  | some installDir => getExePathIfExistsWin fs installDir system

/-- Windows `findQemuExecutable`: `QEMU_ROOT`, then `PATH`, then the
registry, else empty. -/
def findQemuExecutableWin (env : Env) (fs : FS) (reg : Option String) (system : String) : String :=
  let qemuEnv := findQemuExecutableEnvWin env fs system
  if qemuEnv ≠ "" then qemuEnv
  else
    let pathPath := findQemuExecutablePathWin env fs system
    if pathPath ≠ "" then pathPath
    else
      let registryPath := findQemuExecutableRegistryWin reg fs system
      if registryPath ≠ "" then registryPath
      else ""

/-! ### Launcher facade configuration (`src/src/qemu_launcher.cpp`) -/

/-- Configuration fields of the `Launcher` facade: `mQemuPath`, `mBiosFile`
and `mArguments` (the same three fields live in the pImpl of the macOS and
Windows variants). -/
structure LauncherState where
  mQemuPath : String
  mBiosFile : String
  mArguments : List String

/-- `Launcher::setQemuPath`. -/
def setQemuPath (s : LauncherState) (path : String) : LauncherState :=
  { s with mQemuPath := path }

/-- `Launcher::setBios`. -/
def setBios (s : LauncherState) (bios : String) : LauncherState :=
  { s with mBiosFile := bios }

/-- `Launcher::addArgument`: `mArguments.push_back(arg)`. -/
def addArgument (s : LauncherState) (arg : String) : LauncherState :=
  { s with mArguments := s.mArguments ++ [arg] }

/-- `Launcher::qemuPath` accessor. -/
def qemuPath (s : LauncherState) : String := s.mQemuPath

/-- `Launcher::bios` accessor. -/
def bios (s : LauncherState) : String := s.mBiosFile

/-- `Launcher::arguments` accessor. -/
def arguments (s : LauncherState) : List String := s.mArguments

/-- Generic `Launcher::start` (`qemu_launcher.cpp`): four validation checks
in order — empty executable path, executable path does not exist, empty
BIOS file, BIOS file does not exist — each returning `false`; after all
four pass the function returns `true` (launching itself is still a TODO in
this variant).  No member field is assigned, so the state is returned
unchanged. -/
def genericStart (fs : FS) (s : LauncherState) : Bool × LauncherState :=
  if s.mQemuPath = "" then (false, s)
  else if ¬ fs.fileExists s.mQemuPath then (false, s)
  else if s.mBiosFile = "" then (false, s)
  else if ¬ fs.fileExists s.mBiosFile then (false, s)
  else (true, s)

/-- What the Windows `Launcher::start` (lines 591-610) does before reaching
`pImpl->start()`: it rejects (returns `false`) or proceeds toward spawning. -/
inductive StartOutcome where
  | rejected
  | proceeds
deriving DecidableEq

/-- Windows `Launcher::start` validation as written in the source: it
returns `false` when `mQemuPath` is NOT empty (`if (!pImpl->mQemuPath.empty())`),
then `false` when `mBiosFile` is NOT empty, and otherwise falls through to
`pImpl->start()` which creates the pipes and spawns the child. -/
def winStartValidation (s : LauncherState) : StartOutcome :=
  if s.mQemuPath ≠ "" then .rejected
  else if s.mBiosFile ≠ "" then .rejected
  else .proceeds

/-! ### macOS process session (`Launcher::Impl` in `src/unnamed/part_000`) -/

/-- The part of the macOS `Launcher::Impl` state relevant to the lifecycle:
the configuration fields, the child pid (`-1` when no child) and the three
parent-side pipe file descriptors (`-1` when closed). -/
structure MacImpl where
  mQemuPath : String
  mBiosFile : String
  mArguments : List String
  mQemuPid : Int
  stdInWr : Int
  stdOutRd : Int
  stdErrRd : Int

/-- Outcome of the OS calls made by the macOS `Impl::start`: whether the
three `pipe()` calls succeed, whether `fork()` succeeds, and the child pid
returned on success. -/
structure MacSys where
  pipeOk : Bool
  forkOk : Bool
  childPid : Int
  pipeFds : Int × Int × Int

/-- macOS `Impl::start`: create pipes (failure returns `false`), fork
(failure returns `false`), and in the parent record the child pid and the
parent-side pipe ends and return `true`.  The configuration fields are
never written. -/
def implStartMac (sys : MacSys) (s : MacImpl) : Bool × MacImpl :=
  if ¬ sys.pipeOk then (false, s)
  else if ¬ sys.forkOk then (false, s)
  else (true, { s with mQemuPid := sys.childPid,
                       stdInWr := sys.pipeFds.1,
                       stdOutRd := sys.pipeFds.2.1,
                       stdErrRd := sys.pipeFds.2.2 })

/-- macOS `Launcher::start`: returns `false` on empty `mQemuPath`, `false`
on empty `mBiosFile`, otherwise delegates to `Impl::start` (this variant
performs no filesystem existence check). -/
def launcherStartMac (sys : MacSys) (s : MacImpl) : Bool × MacImpl :=
  if s.mQemuPath = "" then (false, s)
  else if s.mBiosFile = "" then (false, s)
  else implStartMac sys s

/-- macOS `Impl::stop`: if a child is running (`mQemuPid > 0`), SIGTERM it,
reap it, reset the pid, close the pipes and return `true`; otherwise return
`false`. -/
def implStopMac (s : MacImpl) : Bool × MacImpl :=
  if s.mQemuPid > 0 then
    (true, { s with mQemuPid := -1, stdInWr := -1, stdOutRd := -1, stdErrRd := -1 })
  else (false, s)

/-- macOS `Impl::terminate`: same shape as `Impl::stop` but with SIGKILL. -/
def implTerminateMac (s : MacImpl) : Bool × MacImpl :=
  if s.mQemuPid > 0 then
    (true, { s with mQemuPid := -1, stdInWr := -1, stdOutRd := -1, stdErrRd := -1 })
  else (false, s)

/-- Lifecycle calls a destructor can make. -/
inductive DtorAct where
  | stopA
  | terminateA
deriving DecidableEq

/-- macOS `Launcher::~Launcher`: `if (!pImpl->stop()) pImpl->terminate();` —
the sequence of lifecycle calls it performs. -/
def macDestructorActions (s : MacImpl) : List DtorAct :=
  let r := implStopMac s
  if r.1 then [.stopA] else [.stopA, .terminateA]

/-- Generic `Launcher::~Launcher` (`qemu_launcher.cpp`): calls `stop()` and
nothing else (the result is discarded). -/
def genericDestructorActions : List DtorAct := [.stopA]

/-- Generic `Launcher::stop` (`qemu_launcher.cpp`): a stub that always
returns `true`. -/
def genericStop : Bool := true

/-! ### Spawn command lines -/

/-- Child argv built by the macOS `Impl::start` in the forked child: the
executable path, then `-bios` and the BIOS file when `mBiosFile` is
non-empty, then every configured argument in order. -/
def macChildArgs (s : MacImpl) : List String :=
  [s.mQemuPath]
    ++ (if s.mBiosFile = "" then [] else ["-bios", s.mBiosFile])
    ++ s.mArguments

/-- Windows command line built by `Impl::start` (lines 481-483):
`mQemuPath + " -bios " + mBiosFile` followed by `" " + arg` for each
configured argument. -/
def winCommandLine (path biosFile : String) (args : List String) : String :=
  args.foldl (fun acc a => acc ++ " " ++ a) (path ++ " -bios " ++ biosFile)

/-! ### Helper lemmas -/

/-- String concatenation is associative (via the underlying character lists). -/
theorem strAppendAssoc (a b c : String) : a ++ b ++ c = a ++ (b ++ c) :=
  String.ext (by simp [String.data_append, List.append_assoc])

/-- The accumulator loop of `String.intercalate` is the fold the Windows
command-line construction performs. -/
theorem intercalateGoEqFoldl :
    ∀ (args : List String) (acc : String),
      String.intercalate.go acc " " args = args.foldl (fun acc a => acc ++ " " ++ a) acc
  | [], _ => rfl
  | a :: as, acc => intercalateGoEqFoldl as (acc ++ " " ++ a)

/-- A search over segments whose probe never succeeds yields the empty
result. -/
theorem searchSegmentsEmptyOfProbeEmpty (probe : String → String)
    (h : ∀ d, probe d = "") : ∀ l : List String, searchSegments probe l = "" := by
  intro l
  induction l with
  | nil => rfl
  | cons d rest ih => simp [searchSegments, h d, ih]

/-- The state returned by the generic `Launcher::start` is the input state:
the function only reads the configuration. -/
theorem genericStartStateEq (fs : FS) (s : LauncherState) : (genericStart fs s).2 = s := by
  unfold genericStart
  split_ifs <;> rfl

/-- The macOS `Launcher::start` never writes the configuration fields. -/
theorem launcherStartMacConfigFrame (sys : MacSys) (m : MacImpl) :
    (launcherStartMac sys m).2.mQemuPath = m.mQemuPath ∧
      (launcherStartMac sys m).2.mBiosFile = m.mBiosFile ∧
      (launcherStartMac sys m).2.mArguments = m.mArguments := by
  unfold launcherStartMac implStartMac
  split_ifs <;> simp

/-! ### Claim theorems -/

/-- Claim C10: the configuration setters and read accessors round-trip
exactly — `qemuPath` after `setQemuPath p` is `p`, `bios` after `setBios b`
is `b`, `addArgument a` appends `a` at the end of `arguments`, and each
setter leaves the other two fields untouched. -/
theorem setters_accessors_roundtrip :
    ∀ (s : LauncherState) (p b a : String),
      qemuPath (setQemuPath s p) = p ∧
      bios (setQemuPath s p) = bios s ∧
      arguments (setQemuPath s p) = arguments s ∧
      bios (setBios s b) = b ∧
      qemuPath (setBios s b) = qemuPath s ∧
      arguments (setBios s b) = arguments s ∧
      arguments (addArgument s a) = arguments s ++ [a] ∧
      qemuPath (addArgument s a) = qemuPath s ∧
      bios (addArgument s a) = bios s :=
  fun _ _ _ _ => ⟨rfl, rfl, rfl, rfl, rfl, rfl, rfl, rfl, rfl⟩

/-- Claim C9: whenever `start()` returns `false`, the configuration is
unchanged — `qemuPath()`, `bios()` and `arguments()` afterwards return
exactly what they returned before, in both the generic facade and the
macOS variant. -/
theorem start_false_preserves_config :
    ∀ (fs : FS) (s : LauncherState) (sys : MacSys) (m : MacImpl),
      ((genericStart fs s).1 = false →
        qemuPath (genericStart fs s).2 = qemuPath s ∧
        bios (genericStart fs s).2 = bios s ∧
        arguments (genericStart fs s).2 = arguments s) ∧
      ((launcherStartMac sys m).1 = false →
        (launcherStartMac sys m).2.mQemuPath = m.mQemuPath ∧
        (launcherStartMac sys m).2.mBiosFile = m.mBiosFile ∧
        (launcherStartMac sys m).2.mArguments = m.mArguments) := by
  intro fs s sys m
  refine ⟨fun _ => ?_, fun _ => launcherStartMacConfigFrame sys m⟩
  rw [genericStartStateEq]
  exact ⟨rfl, rfl, rfl⟩

/-- Witness for C9 at a concrete failing configuration: `start()` on an
empty executable path returns `false` and the accessors are unchanged. -/
theorem start_false_preserves_config_witness :
    (genericStart ⟨fun _ => false, fun _ => false⟩ ⟨"", "", []⟩).1 = false ∧
      (qemuPath (genericStart ⟨fun _ => false, fun _ => false⟩ ⟨"", "", []⟩).2 = qemuPath ⟨"", "", []⟩ ∧
        bios (genericStart ⟨fun _ => false, fun _ => false⟩ ⟨"", "", []⟩).2 = bios ⟨"", "", []⟩ ∧
        arguments (genericStart ⟨fun _ => false, fun _ => false⟩ ⟨"", "", []⟩).2 = arguments ⟨"", "", []⟩) :=
  ⟨rfl,
    (start_false_preserves_config ⟨fun _ => false, fun _ => false⟩ ⟨"", "", []⟩
      ⟨true, true, 7, (3, 4, 5)⟩ ⟨"", "", [], -1, -1, -1, -1⟩).1 rfl⟩

/-- Claim C8: the destructor of a Launcher first attempts `stop()` and
invokes `terminate()` exactly when that `stop()` returns `false` (macOS
pImpl destructor); the generic facade destructor calls `stop()` alone, and
its stub `stop()` always reports success. -/
theorem destructor_stop_then_terminate :
    (∀ s : MacImpl,
        (macDestructorActions s).head? = some DtorAct.stopA ∧
          (DtorAct.terminateA ∈ macDestructorActions s ↔ (implStopMac s).1 = false)) ∧
      genericDestructorActions = [DtorAct.stopA] ∧ genericStop = true := by
  refine ⟨fun s => ?_, rfl, rfl⟩
  unfold macDestructorActions
  by_cases h : (implStopMac s).1 <;> simp [h]

/-- Claim C7: the child's command line is the executable path, then the
`-bios` flag immediately followed by the BIOS file, then all configured
arguments in order — as an argv list in the macOS fork branch and as a
space-joined string in the Windows `CreateProcessW` call. -/
theorem spawn_command_line_order :
    (∀ m : MacImpl, m.mBiosFile ≠ "" →
        macChildArgs m = [m.mQemuPath, "-bios", m.mBiosFile] ++ m.mArguments) ∧
      ∀ (p b : String) (args : List String),
        winCommandLine p b args = String.intercalate " " ([p, "-bios", b] ++ args) := by
  constructor
  · intro m h
    simp [macChildArgs, h]
  · intro p b args
    show winCommandLine p b args = String.intercalate.go p " " ("-bios" :: b :: args)
    show winCommandLine p b args = String.intercalate.go (p ++ " " ++ "-bios" ++ " " ++ b) " " args
    rw [intercalateGoEqFoldl]
    unfold winCommandLine
    have hb : p ++ " " ++ "-bios" ++ " " ++ b = p ++ " -bios " ++ b := by
      have h1 : (" -bios " : String) = " " ++ "-bios" ++ " " := rfl
      rw [h1]
      simp only [strAppendAssoc]
    rw [hb]

/-- Witness for C7 at a concrete accepted configuration. -/
theorem spawn_command_line_order_witness :
    macChildArgs ⟨"/usr/bin/qemu-system-avr", "/fw/bios.bin", ["-m", "2048"], -1, -1, -1, -1⟩
      = ["/usr/bin/qemu-system-avr", "-bios", "/fw/bios.bin", "-m", "2048"] :=
  spawn_command_line_order.1
    ⟨"/usr/bin/qemu-system-avr", "/fw/bios.bin", ["-m", "2048"], -1, -1, -1, -1⟩ (by decide)

/-- Claim C1 (code bug): the Windows `Launcher::start` inverts its two
validation checks — it proceeds toward spawning exactly when the executable
path and BIOS file are EMPTY, and rejects any configuration in which they
are set, contradicting its own error messages and the Windows unit test
`LauncherStartValidation.RequiresValidPaths`.  The generic facade
`qemu_launcher.cpp` implements the claimed contract: `start()` returns
`true` iff the executable path is non-empty and exists and the BIOS file is
non-empty and exists. -/
theorem windows_start_validation_inverted :
    winStartValidation ⟨"", "", []⟩ = StartOutcome.proceeds ∧
      winStartValidation ⟨"C:\\qemu\\qemu-system-x86_64.exe", "C:\\qemu\\bios.bin", []⟩
        = StartOutcome.rejected ∧
      ∀ (fs : FS) (s : LauncherState),
        (genericStart fs s).1 = true ↔
          (s.mQemuPath ≠ "" ∧ fs.fileExists s.mQemuPath = true ∧
            s.mBiosFile ≠ "" ∧ fs.fileExists s.mBiosFile = true) := by
  refine ⟨rfl, rfl, fun fs s => ?_⟩
  unfold genericStart
  split_ifs with h1 h2 h3 h4 <;> simp_all

/-- Claim C4 (code bug): the Linux probe appends `".exe"` to the candidate
filename — with the file layout created by the Linux unit test
(`<dir>/<system>` present and executable) the Linux `getExePathIfExists`
returns empty, while it would return `<dir>/<system>.exe` if such a file
existed; the macOS probe returns exactly `<dir>/<system>` and the Windows
probe `<dir>\<system>.exe` as specified. -/
theorem linux_probe_appends_exe_extension :
    getExePathIfExistsLinux ⟨fun p => p == "/tmp/d/qemu-system-x86_64", fun _ => true⟩
        "/tmp/d" "qemu-system-x86_64" = "" ∧
      getExePathIfExistsLinux ⟨fun p => p == "/tmp/d/qemu-system-x86_64.exe", fun _ => true⟩
        "/tmp/d" "qemu-system-x86_64" = "/tmp/d/qemu-system-x86_64.exe" ∧
      getExePathIfExistsMac ⟨fun p => p == "/tmp/d/qemu-system-x86_64", fun _ => true⟩
        "/tmp/d" "qemu-system-x86_64" = "/tmp/d/qemu-system-x86_64" ∧
      getExePathIfExistsWin ⟨fun p => p == "C:\\d\\qemu-system-x86_64.exe", fun _ => true⟩
        "C:\\d" "qemu-system-x86_64" = "C:\\d\\qemu-system-x86_64.exe" :=
  ⟨by decide, by decide, by decide, by decide⟩

/-- Claim C2: strategy precedence — `QEMU_ROOT` strictly precedes `PATH`,
which strictly precedes the platform-specific strategy (common paths on
macOS, registry on Windows), and when only the lowest-precedence strategy
finds the executable its path is still returned. -/
theorem resolver_strategy_precedence :
    ∀ (env : Env) (fs : FS) (reg : Option String) (system : String),
      system ≠ "" →
      ((findQemuExecutableEnvMac env fs system ≠ "" →
          implFindQemuExecutableMac env fs system = (findQemuExecutableEnvMac env fs system, true)) ∧
        (findQemuExecutableEnvMac env fs system = "" →
          findQemuExecutablePathMac env fs system ≠ "" →
          implFindQemuExecutableMac env fs system = (findQemuExecutablePathMac env fs system, true)) ∧
        (findQemuExecutableEnvMac env fs system = "" →
          findQemuExecutablePathMac env fs system = "" →
          findQemuExecutableCommonMac fs system ≠ "" →
          implFindQemuExecutableMac env fs system = (findQemuExecutableCommonMac fs system, true))) ∧
      ((findQemuExecutableEnvWin env fs system ≠ "" →
          findQemuExecutableWin env fs reg system = findQemuExecutableEnvWin env fs system) ∧
        (findQemuExecutableEnvWin env fs system = "" →
          findQemuExecutablePathWin env fs system ≠ "" →
          findQemuExecutableWin env fs reg system = findQemuExecutablePathWin env fs system) ∧
        (findQemuExecutableEnvWin env fs system = "" →
          findQemuExecutablePathWin env fs system = "" →
          findQemuExecutableRegistryWin reg fs system ≠ "" →
          findQemuExecutableWin env fs reg system = findQemuExecutableRegistryWin reg fs system)) := by
  intro env fs reg system hsys
  refine ⟨⟨fun h1 => ?_, fun h1 h2 => ?_, fun h1 h2 h3 => ?_⟩,
          ⟨fun h1 => ?_, fun h1 h2 => ?_, fun h1 h2 h3 => ?_⟩⟩ <;>
    simp_all [implFindQemuExecutableMac, findQemuExecutableWin]

/-- Witness for C2: with `QEMU_ROOT=/r` and `/r/arm` present and
executable, the macOS resolver returns the environment-root strategy's
path. -/
theorem resolver_strategy_precedence_witness :
    implFindQemuExecutableMac ⟨some "/r", none⟩ ⟨fun p => p == "/r/arm", fun _ => true⟩ "arm"
      = (findQemuExecutableEnvMac ⟨some "/r", none⟩ ⟨fun p => p == "/r/arm", fun _ => true⟩ "arm", true) :=
  ((resolver_strategy_precedence ⟨some "/r", none⟩ ⟨fun p => p == "/r/arm", fun _ => true⟩
      none "arm" (by decide)).1).1 (by decide)

/-- Counterexample for C3: on the Linux variant a probe returns a file that
exists but is NOT executable — with `/d/qemu.exe` present with permissions
`rw-` and `PATH=/d`, both the probe and the full resolver return
`/d/qemu.exe` instead of treating it as absent. -/
theorem linux_probe_ignores_exec_bit :
    getExePathIfExistsLinux ⟨fun p => p == "/d/qemu.exe", fun _ => false⟩ "/d" "qemu"
        = "/d/qemu.exe" ∧
      findQemuExecutableLinux ⟨none, some "/d"⟩ ⟨fun p => p == "/d/qemu.exe", fun _ => false⟩ "qemu"
        = "/d/qemu.exe" ∧
      FS.isExec ⟨fun p => p == "/d/qemu.exe", fun _ => false⟩ "/d/qemu.exe" = false ∧
      ("/d/qemu.exe" : String) ≠ "" :=
  ⟨by decide, by decide, rfl, by decide⟩

/-- Claim C3 as amended: on the macOS variant every probe requires
executability — a candidate whose execute bit is absent is treated as
absent, and if no path in the filesystem is executable the whole macOS
resolver returns empty; the Linux variant checks existence only. -/
theorem mac_probe_requires_exec :
    (∀ (fs : FS) (d sys : String), fs.isExec (d ++ "/" ++ sys) = false →
        getExePathIfExistsMac fs d sys = "") ∧
      ∀ fs : FS, (∀ p, fs.isExec p = false) →
        ∀ (env : Env) (sys : String), implFindQemuExecutableMac env fs sys = ("", false) := by
  constructor
  · intro fs d sys h
    simp [getExePathIfExistsMac, isFileExistsMac, h]
  · intro fs hx env sys
    have hprobe : ∀ d sys2, getExePathIfExistsMac fs d sys2 = "" := by
      intro d sys2
      simp [getExePathIfExistsMac, isFileExistsMac, hx]
    have henv : findQemuExecutableEnvMac env fs sys = "" := by
      unfold findQemuExecutableEnvMac
      cases env.qemuRoot <;> simp [hprobe]
    have hpath : findQemuExecutablePathMac env fs sys = "" := by
      unfold findQemuExecutablePathMac
      cases env.searchPath <;> simp [searchSegmentsEmptyOfProbeEmpty _ (fun d => hprobe d sys)]
    have hcommon : findQemuExecutableCommonMac fs sys = "" :=
      searchSegmentsEmptyOfProbeEmpty _ (fun d => hprobe d sys) _
    unfold implFindQemuExecutableMac
    split_ifs <;> simp_all

/-- Witness for the amended C3: a readable but non-executable candidate is
rejected by the macOS probe. -/
theorem mac_probe_requires_exec_witness :
    getExePathIfExistsMac ⟨fun _ => true, fun _ => false⟩ "/usr/bin" "qemu-system-avr" = "" :=
  mac_probe_requires_exec.1 ⟨fun _ => true, fun _ => false⟩ "/usr/bin" "qemu-system-avr" rfl

/-- Counterexample for C5: the Linux free-function resolver has no
emptiness check for the system id — with `QEMU_ROOT=/x` and a file `/x/.exe`
present, resolving the EMPTY system id probes the filesystem and returns
`/x/.exe`, not the empty result. -/
theorem linux_resolver_probes_on_empty_system :
    findQemuExecutableLinux ⟨some "/x", none⟩ ⟨fun p => p == "/x/.exe", fun _ => false⟩ ""
        = "/x/.exe" ∧
      ("/x/.exe" : String) ≠ "" :=
  ⟨by decide, by decide⟩

/-- Claim C5 as amended: the macOS `Impl::findQemuExecutable` returns the
empty result for the empty system id for EVERY environment and filesystem
state (hence performs no probe that could influence the result); the Linux
free function `findQemuExecutable` omits the emptiness check and can return
a path such as `<root>/.exe`. -/
theorem mac_impl_empty_system_yields_empty :
    ∀ (env : Env) (fs : FS), implFindQemuExecutableMac env fs "" = ("", false) :=
  fun _ _ => rfl

/-- Splitting a string that begins with the separator yields a leading
empty segment (the `find`/`substr` loop cuts an empty first piece). -/
theorem splitSegmentsColonCons (v : String) :
    splitSegments ':' (":" ++ v) = "" :: splitSegments ':' v := by
  unfold splitSegments
  have h : ((":" : String) ++ v).data = ':' :: v.data := by
    rw [String.data_append]; rfl
  rw [h]
  simp [splitCharsAux]

/-- Same as `splitSegmentsColonCons` for the Windows `;` separator. -/
theorem splitSegmentsSemiCons (v : String) :
    splitSegments ';' (";" ++ v) = "" :: splitSegments ';' v := by
  unfold splitSegments
  have h : ((";" : String) ++ v).data = ';' :: v.data := by
    rw [String.data_append]; rfl
  rw [h]
  simp [splitCharsAux]

/-- The Linux probe applied to the empty directory segment builds the path
`"/" ++ system ++ ".exe"` — a probe of the filesystem root. -/
theorem getExePathIfExistsLinuxEmptyDir (fs : FS) (sys : String) :
    getExePathIfExistsLinux fs "" sys
      = if fs.fileExists ("/" ++ sys ++ ".exe") then "/" ++ sys ++ ".exe" else "" := rfl

/-- The Windows probe applied to the empty directory segment builds the
path `"\" ++ system ++ ".exe"`. -/
theorem getExePathIfExistsWinEmptyDir (fs : FS) (sys : String) :
    getExePathIfExistsWin fs "" sys
      = if fs.fileExists ("\\" ++ sys ++ ".exe") then "\\" ++ sys ++ ".exe" else "" := rfl

/-- Counterexample for C6: an empty `PATH` segment is NOT skipped — with
`PATH=":/d"` the Linux search probes the empty first segment as the path
`/qemu-system-arm.exe` at the filesystem root, and returns it when such a
file exists there. -/
theorem empty_path_segment_probed_at_root :
    findQemuExecutablePathLinux ⟨none, some ":/d"⟩
        ⟨fun p => p == "/qemu-system-arm.exe", fun _ => true⟩ "qemu-system-arm"
        = "/qemu-system-arm.exe" ∧
      ("/qemu-system-arm.exe" : String) ≠ "" :=
  ⟨by decide, by decide⟩

/-- Claim C6 as amended: an empty search-path segment is probed like any
other, with the empty directory producing the candidate
`"/" ++ systemId ++ ".exe"` (Linux) resp. `"\" ++ systemId ++ ".exe"`
(Windows); when that probe fails the search continues with the remaining
segments in left-to-right order. -/
theorem empty_segment_probed_then_continue :
    ∀ (fs : FS) (sys v : String),
      (getExePathIfExistsLinux fs "" sys
          = if fs.fileExists ("/" ++ sys ++ ".exe") then "/" ++ sys ++ ".exe" else "") ∧
      (getExePathIfExistsWin fs "" sys
          = if fs.fileExists ("\\" ++ sys ++ ".exe") then "\\" ++ sys ++ ".exe" else "") ∧
      (fs.fileExists ("/" ++ sys ++ ".exe") = false →
        findQemuExecutablePathLinux ⟨none, some (":" ++ v)⟩ fs sys
          = findQemuExecutablePathLinux ⟨none, some v⟩ fs sys) ∧
      (fs.fileExists ("\\" ++ sys ++ ".exe") = false → v ≠ "" →
        findQemuExecutablePathWin ⟨none, some (";" ++ v)⟩ fs sys
          = findQemuExecutablePathWin ⟨none, some v⟩ fs sys) := by
  intro fs sys v
  refine ⟨rfl, rfl, fun h => ?_, fun h hv => ?_⟩
  · have hp : getExePathIfExistsLinux fs "" sys = "" := by
      rw [getExePathIfExistsLinuxEmptyDir, h]
      simp
    show searchSegments (fun d => getExePathIfExistsLinux fs d sys) (splitSegments ':' (":" ++ v))
        = findQemuExecutablePathLinux ⟨none, some v⟩ fs sys
    rw [splitSegmentsColonCons]
    simp [searchSegments, hp, findQemuExecutablePathLinux]
  · have hp : getExePathIfExistsWin fs "" sys = "" := by
      rw [getExePathIfExistsWinEmptyDir, h]
      simp
    have hsemi : (";" ++ v : String) ≠ "" := by
      intro heq
      have hd := congrArg String.data heq
      rw [String.data_append] at hd
      simp at hd
    show (if (";" ++ v : String) = "" then ""
          else searchSegments (fun d => getExePathIfExistsWin fs d sys) (splitSegments ';' (";" ++ v)))
        = findQemuExecutablePathWin ⟨none, some v⟩ fs sys
    rw [if_neg hsemi, splitSegmentsSemiCons]
    simp [searchSegments, hp, findQemuExecutablePathWin, hv]

/-- Witness for the amended C6: with nothing at the filesystem root, the
search over `PATH=":/d"` equals the search over `PATH="/d"`. -/
theorem empty_segment_probed_then_continue_witness :
    findQemuExecutablePathLinux ⟨none, some (":" ++ "/d")⟩ ⟨fun _ => false, fun _ => false⟩ "arm"
      = findQemuExecutablePathLinux ⟨none, some "/d"⟩ ⟨fun _ => false, fun _ => false⟩ "arm" :=
  (empty_segment_probed_then_continue ⟨fun _ => false, fun _ => false⟩ "arm" "/d").2.2.1 rfl
